import Mathlib

/-!
# Verification of the urbansprawl grid-feature and land-use-mix engine

Shallow embedding, in Lean 4, of the algorithmic core of the `urbansprawl`
repository (files `urbansprawl/population/urban_features.py`,
`urbansprawl/population/utils.py`, `urbansprawl/sprawl/landusemix.py`),
together with theorems settling the specification claims about it.

Modelling conventions:
* Python floats that take part in exact arithmetic (areas, ratios, weights,
  coordinates, dispersion values) are modelled as `ℚ` or `ℤ`;
  quantities combined with transcendental functions (`math.log`, KDE kernels)
  are modelled as `ℝ`.
* `np.nan` results that downstream code treats as "null / undefined" are
  modelled with `Option` (`none` = null/NaN).
* A Python exception aborting a computation is modelled with `Except`
  (`Except.error` = uncaught exception).
-/

namespace Urbansprawl

/-! ## §1 Cell feature aggregation (`population/urban_features.py`)

`compute_full_urban_features` computes, per (grid-cell, building) pair
produced by the spatial join, the apportionment weight

    building_ratio = geom_building.intersection(cell_geometry).area
                     / geom_building.area

(`urban_features.py`, lines 156-160).  We embed the ratio arithmetic over
exact rationals: the geometric intersection areas themselves are inputs of
the embedding. -/

/-- `building_ratio` arithmetic of `urban_features.py` lines 156-160:
the intersection area of the building with the cell, divided by the full
building area. -/
def building_ratio_q (interArea bArea : ℚ) : ℚ := interArea / bArea

/-- Summing a list of rationals each divided by the same denominator. -/
theorem sum_map_div_q (l : List ℚ) (A : ℚ) :
    (l.map (fun a => a / A)).sum = l.sum / A := by
  induction l with
  | nil => simp
  | cons x xs ih => simp [ih, add_div]

/-- C1: the per-cell apportionment weight is
`building_ratio = area(b ∩ cell) / area(b)`; a building fully inside one
cell has ratio `1`, and when the (disjoint) intersection areas of a building
with the cells it is split across cover its full area, the ratios sum to
exactly `1` (exact rational arithmetic; the floating-point tolerance of the
spec is not needed), so the building is never double-counted. -/
theorem building_ratio_partition_of_unity
    (areas : List ℚ) (A : ℚ) (hA : 0 < A) (hcover : areas.sum = A) :
    building_ratio_q A A = 1 ∧
      (areas.map (fun a => building_ratio_q a A)).sum = 1 := by
  constructor
  · exact div_self (ne_of_gt hA)
  · unfold building_ratio_q
    rw [sum_map_div_q, hcover]
    exact div_self (ne_of_gt hA)

/-- Witness for C1: a building of area `6` split into intersection
areas `1`, `2`, `3`. -/
theorem building_ratio_partition_of_unity_witness :
    building_ratio_q 6 6 = 1 ∧
      ([(1 : ℚ), 2, 3].map (fun a => building_ratio_q a 6)).sum = 1 :=
  building_ratio_partition_of_unity [1, 2, 3] 6 (by norm_num) (by norm_num)

/-! ## §2 Dispersion cap (`urban_features.py` lines 310-314)

```python
if kwargs.get("max_dispersion"):  # Set max bounds for dispersion values
    pop_features.loc[
        pop_features.dispersion > kwargs.get("max_dispersion"),
        "dispersion",
    ] = kwargs.get("max_dispersion")
```

`kwargs.get` yields `None` when the key is absent; the `if` tests Python
truthiness, so both `None` and a cap of `0` skip the clamping entirely.
Rows are never dropped: only the `dispersion` column is overwritten. -/

/-- The dispersion-cap step of `compute_full_urban_features`
(`urban_features.py` lines 310-314), applied to the dispersion column.
`none` models an absent `max_dispersion` key; the `c = 0` branch models
Python's falsy test `if kwargs.get("max_dispersion"):` on a zero cap. -/
def apply_max_dispersion (max_dispersion : Option ℚ) (dispersion : List ℚ) :
    List ℚ :=
  match max_dispersion with
  | none => dispersion
  | some c =>
      if c = 0 then dispersion
      else dispersion.map (fun d => if c < d then c else d)

/-- C9 counterexample: a caller-supplied cap of `0` is falsy in Python, so
the clamp is skipped and a dispersion value of `5` stays `5` instead of
being clamped to the cap `0`. -/
theorem apply_max_dispersion_zero_cap_not_clamped :
    apply_max_dispersion (some 0) [5] = [5] ∧
      apply_max_dispersion (some 0) [5] ≠ [0] := by
  constructor
  · rfl
  · decide

/-- C9 (amended): for every nonzero caller-supplied cap, every dispersion
value above the cap is clamped to exactly the cap, values at or below the
cap are unchanged (i.e. the column becomes the pointwise `min` with the
cap), and no row is dropped. -/
theorem apply_max_dispersion_clamps (c : ℚ) (l : List ℚ) (hc : c ≠ 0) :
    apply_max_dispersion (some c) l = l.map (fun d => min d c) ∧
      (apply_max_dispersion (some c) l).length = l.length := by
  have hmap : apply_max_dispersion (some c) l
      = l.map (fun d => if c < d then c else d) := by
    simp [apply_max_dispersion, hc]
  constructor
  · rw [hmap]
    apply List.map_congr_left
    intro d _
    rcases le_or_lt d c with h | h
    · rw [if_neg (not_lt.mpr h), min_eq_left h]
    · rw [if_pos h, min_eq_right (le_of_lt h)]
  · rw [hmap, List.length_map]

/-- Witness for C9 (amended): cap `15`, dispersion values `20` and `10`;
`20` is clamped to `15`, `10` is unchanged. -/
theorem apply_max_dispersion_clamps_witness :
    apply_max_dispersion (some 15) [20, 10] = [15, 10] := by
  have h := (apply_max_dispersion_clamps 15 [20, 10] (by norm_num)).1
  rw [h]
  decide

/-! ## §3 Land-use-mix entropy (`sprawl/landusemix.py` lines 21-47)

```python
def metric_phi_entropy(x, y):
    # Undefined for negative values
    if x < 0 or y < 0:
        return np.nan
    # Entropy Index not defined for any input value equal to zero
    if x == 0 or y == 0:
        return 0
    # Sum = 1
    x_, y_ = x / (x + y), y / (x + y)
    phi_value = -((x_ * math.log(x_)) + (y_ * math.log(y_))) / math.log(2)
    return phi_value
```

The `np.nan` result is modelled as `none`. -/

open Real in
/-- The two-category Shannon entropy formula computed in the final branch of
`metric_phi_entropy`: with `a = x/(x+y)` and `b = y/(x+y)`,
`-(a·ln a + b·ln b) / ln 2`. -/
noncomputable def phi_formula (x y : ℝ) : ℝ :=
  -((x / (x + y)) * log (x / (x + y)) + (y / (x + y)) * log (y / (x + y)))
    / log 2

open Real in
/-- `metric_phi_entropy` from `sprawl/landusemix.py` lines 21-47. -/
noncomputable def metric_phi_entropy (x y : ℝ) : Option ℝ :=
  if x < 0 ∨ y < 0 then none
  else if x = 0 ∨ y = 0 then some 0
  else some (phi_formula x y)

/-- The entropy formula, rewritten through Mathlib's binary entropy
function of the first proportion. -/
theorem phi_formula_eq_binEntropy (x y : ℝ) (hxy : x + y ≠ 0) :
    phi_formula x y = Real.binEntropy (x / (x + y)) / Real.log 2 := by
  have hb : y / (x + y) = 1 - x / (x + y) := by
    field_simp
  rw [phi_formula, hb, Real.binEntropy, Real.log_inv, Real.log_inv]
  ring

/-- C2: `metric_phi_entropy` returns null for any negative input; returns
`0` when either (nonnegative) input is exactly `0`; and for nonnegative
inputs that are not both zero returns
`-(a·ln a + b·ln b) / ln 2` with `a = x/(x+y)`, `b = y/(x+y)` (at a zero
input this formula itself evaluates to `0` under the `log 0 = 0`
convention), a value lying in `[0, 1]` and equal to `1` when `x = y > 0`. -/
theorem metric_phi_entropy_spec :
    (∀ x y : ℝ, (x < 0 ∨ y < 0) → metric_phi_entropy x y = none) ∧
    (∀ x y : ℝ, 0 ≤ x → 0 ≤ y → (x = 0 ∨ y = 0) →
      metric_phi_entropy x y = some 0) ∧
    (∀ x y : ℝ, 0 ≤ x → 0 ≤ y → ¬(x = 0 ∧ y = 0) →
      metric_phi_entropy x y = some (phi_formula x y) ∧
      phi_formula x y ∈ Set.Icc (0 : ℝ) 1 ∧
      (x = y → phi_formula x y = 1)) := by
  have hlog2 : (0 : ℝ) < Real.log 2 := Real.log_pos (by norm_num)
  refine ⟨?_, ?_, ?_⟩
  · intro x y h
    simp [metric_phi_entropy, h]
  · intro x y hx hy h
    have hneg : ¬(x < 0 ∨ y < 0) := by
      push_neg
      exact ⟨hx, hy⟩
    simp [metric_phi_entropy, hneg, h]
  · intro x y hx hy hnb
    have hsum : 0 < x + y := by
      rcases lt_or_eq_of_le hx with hx' | hx'
      · linarith
      · rcases lt_or_eq_of_le hy with hy' | hy'
        · linarith
        · exact absurd ⟨hx'.symm, hy'.symm⟩ hnb
    have hbound : phi_formula x y ∈ Set.Icc (0 : ℝ) 1 := by
      rw [phi_formula_eq_binEntropy x y (ne_of_gt hsum)]
      have ha0 : 0 ≤ x / (x + y) := div_nonneg hx (le_of_lt hsum)
      have ha1 : x / (x + y) ≤ 1 := by
        rw [div_le_one hsum]
        linarith
      constructor
      · exact div_nonneg (Real.binEntropy_nonneg ha0 ha1) (le_of_lt hlog2)
      · rw [div_le_one hlog2]
        exact Real.binEntropy_le_log_two
    have heq1 : x = y → phi_formula x y = 1 := by
      intro hxy
      subst hxy
      have hx' : x ≠ 0 := by
        intro h0
        exact hnb ⟨h0, h0⟩
      have hhalf : x / (x + x) = 2⁻¹ := by
        rw [← two_mul]
        rw [div_eq_iff (by positivity)]
        ring
      rw [phi_formula_eq_binEntropy x x (by positivity), hhalf,
        Real.binEntropy_two_inv]
      exact div_self (ne_of_gt hlog2)
    rcases eq_or_lt_of_le hx with hx0 | hxpos
    · -- x = 0, so y > 0: the code returns 0 and the formula evaluates to 0
      have hy0 : y ≠ 0 := fun h => hnb ⟨hx0.symm, h⟩
      have hneg : ¬(x < 0 ∨ y < 0) := by
        push_neg
        exact ⟨hx, hy⟩
      have hzero : phi_formula x y = 0 := by
        rw [phi_formula, ← hx0]
        have hyy : (0 : ℝ) + y = y := by ring
        rw [hyy]
        simp [hy0]
      refine ⟨?_, hbound, heq1⟩
      rw [hzero, metric_phi_entropy, if_neg hneg, if_pos (Or.inl hx0.symm)]
    · rcases eq_or_lt_of_le hy with hy0 | hypos
      · have hneg : ¬(x < 0 ∨ y < 0) := by
          push_neg
          exact ⟨hx, hy⟩
        have hzero : phi_formula x y = 0 := by
          rw [phi_formula, ← hy0]
          have hxx : x + (0 : ℝ) = x := by ring
          rw [hxx]
          simp [ne_of_gt hxpos]
        refine ⟨?_, hbound, heq1⟩
        rw [hzero, metric_phi_entropy, if_neg hneg, if_pos (Or.inr hy0.symm)]
      · have hneg : ¬(x < 0 ∨ y < 0) := by
          push_neg
          exact ⟨hx, hy⟩
        have hz : ¬(x = 0 ∨ y = 0) := by
          push_neg
          exact ⟨ne_of_gt hxpos, ne_of_gt hypos⟩
        refine ⟨?_, hbound, heq1⟩
        simp [metric_phi_entropy, hneg, hz]

/-- Witness for C2: `entropy(-1, 1)` is null, `entropy(0, 1) = 0`, and
`entropy(1, 1) = 1`. -/
theorem metric_phi_entropy_spec_witness :
    metric_phi_entropy (-1) 1 = none ∧
      metric_phi_entropy 0 1 = some 0 ∧
      metric_phi_entropy 1 1 = some 1 := by
  obtain ⟨h1, h2, h3⟩ := metric_phi_entropy_spec
  refine ⟨h1 (-1) 1 (by norm_num), h2 0 1 (by norm_num) (by norm_num)
    (by norm_num), ?_⟩
  obtain ⟨heq, _, hone⟩ := h3 1 1 (by norm_num) (by norm_num) (by norm_num)
  rw [heq, hone rfl]

/-- C10: `metric_phi_entropy` is symmetric in its two arguments, including
the null result for negative inputs and the `0` result at a zero input. -/
theorem metric_phi_entropy_comm (x y : ℝ) :
    metric_phi_entropy x y = metric_phi_entropy y x := by
  by_cases h1 : x < 0 ∨ y < 0
  · simp [metric_phi_entropy, h1, h1.symm]
  · have h1' : ¬(y < 0 ∨ x < 0) := fun h => h1 h.symm
    by_cases h2 : x = 0 ∨ y = 0
    · simp [metric_phi_entropy, h1, h1', h2, h2.symm]
    · have h2' : ¬(y = 0 ∨ x = 0) := fun h => h2 h.symm
      rw [metric_phi_entropy, if_neg h1, if_neg h2,
        metric_phi_entropy, if_neg h1', if_neg h2']
      have hc : x + y = y + x := by ring
      rw [phi_formula, phi_formula, hc]
      ring_nf

/-! ## §4 Degenerate placeholder building (`urban_features.py` lines 129-231)

Grid-cells intersecting no building receive, after the left spatial join,
the degenerate placeholder

```python
min_polygon = Polygon([(0, 0), (0, eps), (eps, eps)])   # eps = np.finfo(float).eps
pop_features.loc[null_idx, "landuses_m2"] = ... {"residential": 0, "activity": 0}
pop_features.loc[null_idx, "building_levels"] = ... 0
```

and every numeric feature is then derived from
`building_ratio = area(geom_building ∩ cell) / area(geom_building)`.
The placeholder rows never receive a `classification`, so the
`classification.isin([...])` masks leave their class-specific columns at
their initialised `0`. -/

/-- `np.finfo(float).eps`, the IEEE-754 double machine epsilon `2⁻⁵²`,
as an exact rational. -/
def np_finfo_float_eps : ℚ := 1 / 2 ^ 52

/-- Area of the triangle with the given three vertices (shoelace formula),
the area Shapely computes for a 3-vertex `Polygon`. -/
def polygon_area3 (p q r : ℚ × ℚ) : ℚ :=
  |(q.1 - p.1) * (r.2 - p.2) - (r.1 - p.1) * (q.2 - p.2)| / 2

/-- Area of the `min_polygon` placeholder triangle
`Polygon([(0, 0), (0, eps), (eps, eps)])` of `urban_features.py`
lines 133-139. -/
def min_polygon_area : ℚ :=
  polygon_area3 (0, 0) (0, np_finfo_float_eps)
    (np_finfo_float_eps, np_finfo_float_eps)

/-- One row of the joined (cell × building) table of
`compute_full_urban_features`, holding the quantities the per-row feature
lambdas of `urban_features.py` lines 152-231 read: the area of
`geom_building ∩ cell`, the area of `geom_building`, the two `landuses_m2`
entries, `building_levels`, and the building `classification`
(`none` models the `NaN` classification of placeholder rows). -/
structure PopFeatureRow where
  interArea : ℚ
  geomBuildingArea : ℚ
  landuses_m2_residential : ℚ
  landuses_m2_activity : ℚ
  building_levels : ℚ
  classification : Option String

/-- The placeholder row substituted for a cell with no intersecting
building (`urban_features.py` lines 129-150): geometry `min_polygon`,
`landuses_m2 = {residential: 0, activity: 0}`, `building_levels = 0`,
no classification.  `interArea` is the area of `min_polygon ∩ cell`. -/
def placeholder_row (interArea : ℚ) : PopFeatureRow :=
  { interArea := interArea
    geomBuildingArea := min_polygon_area
    landuses_m2_residential := 0
    landuses_m2_activity := 0
    building_levels := 0
    classification := none }

/-- Per-row `building_ratio` column (`urban_features.py` lines 156-160). -/
def row_building_ratio (r : PopFeatureRow) : ℚ :=
  building_ratio_q r.interArea r.geomBuildingArea

/-- `m2_total_residential` (lines 162-166). -/
def m2_total_residential (r : PopFeatureRow) : ℚ :=
  row_building_ratio r * r.landuses_m2_residential

/-- `m2_total_activity` (lines 167-171). -/
def m2_total_activity (r : PopFeatureRow) : ℚ :=
  row_building_ratio r * r.landuses_m2_activity

/-- `m2_footprint_residential` (lines 173-181): `0` unless the row's
classification is `residential`. -/
def m2_footprint_residential (r : PopFeatureRow) : ℚ :=
  if r.classification = some "residential" then
    row_building_ratio r * r.geomBuildingArea
  else 0

/-- `m2_footprint_activity` (lines 182-190). -/
def m2_footprint_activity (r : PopFeatureRow) : ℚ :=
  if r.classification = some "activity" then
    row_building_ratio r * r.geomBuildingArea
  else 0

/-- `m2_footprint_mixed` (lines 191-199). -/
def m2_footprint_mixed (r : PopFeatureRow) : ℚ :=
  if r.classification = some "mixed" then
    row_building_ratio r * r.geomBuildingArea
  else 0

/-- `num_built_activity` (lines 201-207). -/
def num_built_activity (r : PopFeatureRow) : ℚ :=
  if r.classification = some "activity" then row_building_ratio r else 0

/-- `num_built_residential` (lines 208-214). -/
def num_built_residential (r : PopFeatureRow) : ℚ :=
  if r.classification = some "residential" then row_building_ratio r else 0

/-- `num_built_mixed` (lines 215-221). -/
def num_built_mixed (r : PopFeatureRow) : ℚ :=
  if r.classification = some "mixed" then row_building_ratio r else 0

/-- `num_levels` (lines 223-225). -/
def num_levels (r : PopFeatureRow) : ℚ :=
  row_building_ratio r * r.building_levels

/-- `num_buildings` (lines 226-228). -/
def num_buildings (r : PopFeatureRow) : ℚ := row_building_ratio r

/-- `built_up_m2` (lines 230-232). -/
def built_up_m2 (r : PopFeatureRow) : ℚ :=
  r.geomBuildingArea * row_building_ratio r

/-- `built_up_relation = built_up_m2 / cell.area` (lines 264-269). -/
def built_up_relation (r : PopFeatureRow) (cellArea : ℚ) : ℚ :=
  built_up_m2 r / cellArea

/-- C4: a cell with no intersecting building receives the degenerate
near-zero-area triangle placeholder with
`landuses_m2 = {residential: 0, activity: 0}` and `building_levels = 0`;
the `building_ratio` denominator is the triangle's area `eps²/2 > 0`, so
the division is well-defined (never a division-by-zero fault), and — under
the hypothesis that the cell's geometry is disjoint from the tiny triangle
at the coordinate origin, so the intersection area is `0` — every numeric
feature column of such a cell ends up `0`. -/
theorem placeholder_row_features_zero (interArea cellArea : ℚ)
    (hdisj : interArea = 0) :
    0 < min_polygon_area ∧
    (placeholder_row interArea).landuses_m2_residential = 0 ∧
    (placeholder_row interArea).landuses_m2_activity = 0 ∧
    (placeholder_row interArea).building_levels = 0 ∧
    0 < (placeholder_row interArea).geomBuildingArea ∧
    m2_total_residential (placeholder_row interArea) = 0 ∧
    m2_total_activity (placeholder_row interArea) = 0 ∧
    m2_footprint_residential (placeholder_row interArea) = 0 ∧
    m2_footprint_activity (placeholder_row interArea) = 0 ∧
    m2_footprint_mixed (placeholder_row interArea) = 0 ∧
    num_built_activity (placeholder_row interArea) = 0 ∧
    num_built_residential (placeholder_row interArea) = 0 ∧
    num_built_mixed (placeholder_row interArea) = 0 ∧
    num_levels (placeholder_row interArea) = 0 ∧
    num_buildings (placeholder_row interArea) = 0 ∧
    built_up_relation (placeholder_row interArea) cellArea = 0 := by
  have harea : 0 < min_polygon_area := by
    rw [min_polygon_area, polygon_area3, np_finfo_float_eps]
    norm_num
  have hratio : row_building_ratio (placeholder_row interArea) = 0 := by
    rw [row_building_ratio, placeholder_row, building_ratio_q, hdisj,
      zero_div]
  refine ⟨harea, rfl, rfl, rfl, harea, ?_, ?_, ?_, ?_, ?_, ?_, ?_, ?_, ?_,
    ?_, ?_⟩
  · rw [m2_total_residential, hratio, zero_mul]
  · rw [m2_total_activity, hratio, zero_mul]
  · rw [m2_footprint_residential]
    simp [placeholder_row]
  · rw [m2_footprint_activity]
    simp [placeholder_row]
  · rw [m2_footprint_mixed]
    simp [placeholder_row]
  · rw [num_built_activity]
    simp [placeholder_row]
  · rw [num_built_residential]
    simp [placeholder_row]
  · rw [num_built_mixed]
    simp [placeholder_row]
  · rw [num_levels, hratio, zero_mul]
  · rw [num_buildings, hratio]
  · rw [built_up_relation, built_up_m2, hratio, mul_zero, zero_div]

/-- Witness for C4: a 200 m × 200 m cell (area `40000`) whose geometry does
not meet the placeholder triangle at the origin. -/
theorem placeholder_row_features_zero_witness :
    0 < min_polygon_area ∧
    (placeholder_row 0).landuses_m2_residential = 0 ∧
    (placeholder_row 0).landuses_m2_activity = 0 ∧
    (placeholder_row 0).building_levels = 0 ∧
    0 < (placeholder_row 0).geomBuildingArea ∧
    m2_total_residential (placeholder_row 0) = 0 ∧
    m2_total_activity (placeholder_row 0) = 0 ∧
    m2_footprint_residential (placeholder_row 0) = 0 ∧
    m2_footprint_activity (placeholder_row 0) = 0 ∧
    m2_footprint_mixed (placeholder_row 0) = 0 ∧
    num_built_activity (placeholder_row 0) = 0 ∧
    num_built_residential (placeholder_row 0) = 0 ∧
    num_built_mixed (placeholder_row 0) = 0 ∧
    num_levels (placeholder_row 0) = 0 ∧
    num_buildings (placeholder_row 0) = 0 ∧
    built_up_relation (placeholder_row 0) 40000 = 0 :=
  placeholder_row_features_zero 0 40000 rfl

/-! ## §5 Kernel density estimation (`sprawl/landusemix.py` lines 253-320)

```python
def calculate_kde(points, df_osm_built, df_osm_pois=None, bandwidth=400,
                  X_weights=None, pois_weight=9, log_weight=True):
    X_b = [...building centroids...]
    X_p = [...] if df_osm_pois else []
    X = np.array(X_b + X_p)
    Y = np.array([...points...])
    if not (X_weights is None):
        X_W = np.concatenate([X_weights.values, np.repeat([pois_weight], len(X_p))])
        if log_weight:
            X_W = np.log(X_W)
        PDF = WeightedKernelDensityEstimation(X, X_W, bandwidth, Y)
        return pd.Series(PDF / PDF.max())
    else:
        kde = KernelDensity(kernel="gaussian", bandwidth=bandwidth).fit(X)
        PDF = np.exp(kde.score_samples(Y))
        return pd.Series(PDF / PDF.max())
```

`WeightedKernelDensityEstimation` lives in `urbansprawl/sprawl/utils.py`,
which is not part of the sources; it is modelled from the spec below.
`sklearn`'s `KernelDensity` is an external library: its documented
behaviour is a Gaussian-kernel density (positive at every evaluation
point), and `fit` raises `ValueError` on an empty sample set, modelled as
`Except.error`. -/

/-- The Gaussian kernel evaluated between a data point and an evaluation
point, at the given bandwidth. -/
noncomputable def gaussian_kernel (bandwidth : ℝ) (xp yp : ℝ × ℝ) : ℝ :=
  Real.exp (-(((yp.1 - xp.1) ^ 2 + (yp.2 - xp.2) ^ 2) /
    (2 * bandwidth ^ 2)))

/-- Modelled from the spec: `WeightedKernelDensityEstimation` is defined in
`urbansprawl/sprawl/utils.py`, which is not among the given sources.  Per
the spec (§4.3 steps 3-4) it evaluates, at every target point, a kernel
density over the input points weighted by the given weight vector with the
given bandwidth, and an empty input point set yields an undefined (null)
surface rather than a numerical fault, modelled as `none`. -/
noncomputable def WeightedKernelDensityEstimation (X : List (ℝ × ℝ))
    (X_W : List ℝ) (bandwidth : ℝ) (Y : List (ℝ × ℝ)) :
    Option (List ℝ) :=
  if X.isEmpty then none
  else some (Y.map (fun yp =>
    ((X.zip X_W).map (fun p => p.2 * gaussian_kernel bandwidth p.1 yp)).sum))

/-- External collaborator model: `sklearn` `KernelDensity` Gaussian fit
followed by `np.exp(score_samples(Y))`.  `fit` raises `ValueError` on an
empty sample set (modelled as `Except.error`); otherwise the returned
densities are means of Gaussian kernels over the samples. -/
noncomputable def sklearn_kde_exp_score (X Y : List (ℝ × ℝ))
    (bandwidth : ℝ) : Except String (List ℝ) :=
  if X.isEmpty then Except.error "Found array with 0 sample(s)"
  else Except.ok (Y.map (fun yp =>
    ((X.map (fun xp => gaussian_kernel bandwidth xp yp)).sum) / X.length))

/-- Maximum of a list of reals (`numpy` `.max()` over a non-empty array;
the `[]` case is junk). -/
noncomputable def list_max : List ℝ → ℝ
  | [] => 0
  | [x] => x
  | x :: y :: ys => max x (list_max (y :: ys))

/-- `PDF / PDF.max()`: the per-surface normalization of `calculate_kde`
(lines 314 and 320). -/
noncomputable def normalize_surface (PDF : List ℝ) : List ℝ :=
  PDF.map (fun v => v / list_max PDF)

/-- The building/POI weight vector of the weighted branch (lines 304-311):
the building weights concatenated with one constant `pois_weight` per POI,
all log-transformed when `log_weight` is set. -/
noncomputable def effective_weights (X_weights : List ℝ) (numPois : ℕ)
    (pois_weight : ℝ) (log_weight : Bool) : List ℝ :=
  let X_W := X_weights ++ List.replicate numPois pois_weight
  if log_weight then X_W.map Real.log else X_W

/-- `calculate_kde` from `sprawl/landusemix.py` lines 253-320.  `X_b` and
`X_p` are the building and POI centroids, `points` the evaluation points.
The returned surface is a column of optional values (`none` = null/NaN
entry); `Except.error` models an uncaught exception. -/
noncomputable def calculate_kde (points : List (ℝ × ℝ))
    (X_b X_p : List (ℝ × ℝ)) (bandwidth : ℝ)
    (X_weights : Option (List ℝ)) (pois_weight : ℝ) (log_weight : Bool) :
    Except String (List (Option ℝ)) :=
  let X := X_b ++ X_p
  match X_weights with
  | some W =>
      match WeightedKernelDensityEstimation X
          (effective_weights W X_p.length pois_weight log_weight)
          bandwidth points with
      | none => Except.ok (points.map (fun _ => none))
      | some PDF => Except.ok ((normalize_surface PDF).map some)
  | none =>
      match sklearn_kde_exp_score X points bandwidth with
      | Except.error e => Except.error e
      | Except.ok PDF => Except.ok ((normalize_surface PDF).map some)

/-- `list_max` of a non-empty list is attained by one of its elements. -/
theorem list_max_mem (l : List ℝ) (h : l ≠ []) : list_max l ∈ l := by
  induction l with
  | nil => exact absurd rfl h
  | cons x xs ih =>
      cases xs with
      | nil => simp [list_max]
      | cons y ys =>
          rcases max_choice x (list_max (y :: ys)) with hc | hc
          · rw [list_max, hc]
            exact List.mem_cons_self _ _
          · rw [list_max, hc]
            exact List.mem_cons_of_mem x (ih (by simp))

/-- Every element of a list is at most its `list_max`. -/
theorem le_list_max (l : List ℝ) (x : ℝ) (hx : x ∈ l) : x ≤ list_max l := by
  induction l with
  | nil => exact absurd hx (List.not_mem_nil x)
  | cons y ys ih =>
      cases ys with
      | nil =>
          rcases List.mem_cons.mp hx with h | h
          · rw [h, list_max]
          · exact absurd h (List.not_mem_nil x)
      | cons z zs =>
          rcases List.mem_cons.mp hx with h | h
          · rw [h, list_max]
            exact le_max_left _ _
          · exact le_trans (ih h) (by rw [list_max]; exact le_max_right _ _)

/-- Dividing every element by a positive constant commutes with
`list_max`. -/
theorem list_max_map_div (l : List ℝ) (M : ℝ) (hM : 0 < M) :
    list_max (l.map (fun v => v / M)) = list_max l / M := by
  induction l with
  | nil => simp [list_max]
  | cons x xs ih =>
      cases xs with
      | nil => simp [list_max]
      | cons y ys =>
          simp only [List.map_cons] at ih ⊢
          rw [list_max, list_max, ih]
          exact max_div_div_right (le_of_lt hM) x _

/-- Normalizing a non-empty list of nonnegative reals, at least one of
them positive, by its own maximum yields a list with maximum exactly `1`
and all entries in `[0, 1]`. -/
theorem normalize_surface_spec (l : List ℝ)
    (hnn : ∀ x ∈ l, 0 ≤ x) (hpos : ∃ x ∈ l, 0 < x) :
    list_max (normalize_surface l) = 1 ∧
      ∀ v ∈ normalize_surface l, 0 ≤ v ∧ v ≤ 1 := by
  obtain ⟨x, hxl, hx⟩ := hpos
  have hM : 0 < list_max l := lt_of_lt_of_le hx (le_list_max l x hxl)
  constructor
  · rw [normalize_surface, list_max_map_div l (list_max l) hM]
    exact div_self (ne_of_gt hM)
  · intro v hv
    obtain ⟨w, hwl, hw⟩ := List.mem_map.mp hv
    constructor
    · rw [← hw]
      exact div_nonneg (hnn w hwl) (le_of_lt hM)
    · rw [← hw, div_le_one hM]
      exact le_list_max l w hwl

/-- C5 counterexample: in the unweighted branch (`X_weights is None`), an
empty selected point set makes `KernelDensity(...).fit(X)` raise
`ValueError`; the computation aborts instead of producing a null column. -/
theorem calculate_kde_empty_unweighted_raises :
    calculate_kde [((0 : ℝ), 0)] [] [] 400 none 9 true
      = Except.error "Found array with 0 sample(s)" := rfl

/-- C5 (amended): in the weighted branch, an empty selected point set
(no building centroids, no POI centroids, hence an empty weight vector)
yields an explicitly null column — one `none` per evaluation point — and
no exception. -/
theorem calculate_kde_weighted_empty_null_column
    (points : List (ℝ × ℝ)) (bandwidth pois_weight : ℝ)
    (log_weight : Bool) :
    calculate_kde points [] [] bandwidth (some []) pois_weight log_weight
      = Except.ok (points.map (fun _ => none)) := by
  cases log_weight <;>
    simp [calculate_kde, WeightedKernelDensityEstimation, effective_weights]

/-- For every weight in the right list of a zip whose lengths agree, some
pair of the zip carries it. -/
theorem exists_zip_pair_of_mem_right {α β : Type} (l₁ : List α)
    (l₂ : List β) (hlen : l₂.length = l₁.length) (b : β) (hb : b ∈ l₂) :
    ∃ a, (a, b) ∈ l₁.zip l₂ := by
  induction l₂ generalizing l₁ with
  | nil => exact absurd hb (List.not_mem_nil b)
  | cons b' bs ih =>
      cases l₁ with
      | nil => simp at hlen
      | cons a as =>
          rcases List.mem_cons.mp hb with h | h
          · exact ⟨a, by rw [h]; exact List.mem_cons_self _ _⟩
          · obtain ⟨a', ha'⟩ := ih as (by simpa using hlen) h
            exact ⟨a', List.mem_cons_of_mem _ ha'⟩

/-- C6 counterexample: with the default `log_weighted = True`, a single
building of floor area `1` gets weight `ln 1 = 0`, the weighted density is
identically `0`, and the "normalized" surface is `0/0`, not a surface of
maximum exactly `1` (numpy produces a NaN column; under Lean's junk value
`0/0 = 0` the surface is `[some 0]`, whose maximum is `0 ≠ 1`). -/
theorem calculate_kde_zero_log_weight_not_normalized :
    calculate_kde [((0 : ℝ), 0)] [((0 : ℝ), 0)] [] 400 (some [1]) 9 true
        = Except.ok [some 0] ∧ (0 : ℝ) ≠ 1 := by
  constructor
  · simp [calculate_kde, WeightedKernelDensityEstimation,
      effective_weights, normalize_surface, list_max, Real.log_one]
  · norm_num

/-- C6 (amended): a density surface produced from a non-empty point set is
normalized by its own maximum and has maximum exactly `1` with all values
in `[0, 1]`, (a) always in the unweighted branch, and (b) in the weighted
branch provided the effective (possibly log-transformed) weight vector
matches the point set in length, is nonnegative, and has at least one
positive entry — the latter hypothesis being exactly what an all-zero log
weight vector violates. -/
theorem calculate_kde_normalization :
    (∀ (points X_b X_p : List (ℝ × ℝ)) (bandwidth pois_weight : ℝ)
        (log_weight : Bool),
        X_b ++ X_p ≠ [] → points ≠ [] →
        ∃ PDF : List ℝ,
          calculate_kde points X_b X_p bandwidth none pois_weight
              log_weight = Except.ok (PDF.map some) ∧
            list_max PDF = 1 ∧ ∀ v ∈ PDF, 0 ≤ v ∧ v ≤ 1) ∧
    (∀ (points X_b X_p : List (ℝ × ℝ)) (bandwidth pois_weight : ℝ)
        (log_weight : Bool) (W : List ℝ),
        (effective_weights W X_p.length pois_weight log_weight).length
            = (X_b ++ X_p).length →
        (∀ w ∈ effective_weights W X_p.length pois_weight log_weight,
          0 ≤ w) →
        (∃ w ∈ effective_weights W X_p.length pois_weight log_weight,
          0 < w) →
        points ≠ [] →
        ∃ PDF : List ℝ,
          calculate_kde points X_b X_p bandwidth (some W) pois_weight
              log_weight = Except.ok (PDF.map some) ∧
            list_max PDF = 1 ∧ ∀ v ∈ PDF, 0 ≤ v ∧ v ≤ 1) := by
  constructor
  · intro points X_b X_p bandwidth pois_weight log_weight hX hpts
    have hie : (X_b ++ X_p).isEmpty = false := by
      cases h : X_b ++ X_p with
      | nil => exact absurd h hX
      | cons a as => rfl
    set X := X_b ++ X_p with hXdef
    set raw : List ℝ := points.map (fun yp =>
      ((X.map (fun xp => gaussian_kernel bandwidth xp yp)).sum) /
        X.length) with hraw
    have hres : calculate_kde points X_b X_p bandwidth none pois_weight
        log_weight = Except.ok ((normalize_surface raw).map some) := by
      simp only [calculate_kde, sklearn_kde_exp_score, ← hXdef, hie]
      rfl
    have hpos_all : ∀ yp, 0 <
        ((X.map (fun xp => gaussian_kernel bandwidth xp yp)).sum) /
          X.length := by
      intro yp
      apply div_pos
      · apply List.sum_pos
        · intro k hk
          obtain ⟨xp, _, hxp⟩ := List.mem_map.mp hk
          rw [← hxp]
          exact Real.exp_pos _
        · simpa using hX
      · have : X.length ≠ 0 := fun h => hX (List.length_eq_zero.mp h)
        exact_mod_cast Nat.pos_of_ne_zero this
    have hnn : ∀ v ∈ raw, 0 ≤ v := by
      intro v hv
      obtain ⟨yp, _, hyp⟩ := List.mem_map.mp hv
      rw [← hyp]
      exact le_of_lt (hpos_all yp)
    have hpos : ∃ v ∈ raw, 0 < v := by
      obtain ⟨p, ps, hp⟩ := List.exists_cons_of_ne_nil hpts
      refine ⟨_, ?_, hpos_all p⟩
      rw [hraw, hp]
      exact List.mem_map_of_mem _ (List.mem_cons_self _ _)
    obtain ⟨hmax, hvals⟩ := normalize_surface_spec raw hnn hpos
    exact ⟨normalize_surface raw, hres, hmax, hvals⟩
  · intro points X_b X_p bandwidth pois_weight log_weight W hlen hwnn hwpos
      hpts
    set W' := effective_weights W X_p.length pois_weight log_weight
      with hW'
    have hX : X_b ++ X_p ≠ [] := by
      intro h
      rw [h] at hlen
      simp only [List.length_nil, List.length_eq_zero] at hlen
      obtain ⟨w, hw, _⟩ := hwpos
      rw [hlen] at hw
      exact List.not_mem_nil w hw
    have hie : (X_b ++ X_p).isEmpty = false := by
      cases h : X_b ++ X_p with
      | nil => exact absurd h hX
      | cons a as => rfl
    set X := X_b ++ X_p with hXdef
    set raw : List ℝ := points.map (fun yp =>
      ((X.zip W').map
        (fun p => p.2 * gaussian_kernel bandwidth p.1 yp)).sum) with hraw
    have hres : calculate_kde points X_b X_p bandwidth (some W)
        pois_weight log_weight
        = Except.ok ((normalize_surface raw).map some) := by
      simp only [calculate_kde, WeightedKernelDensityEstimation, ← hW',
        ← hXdef, hie]
      rfl
    have hpos_all : ∀ yp, 0 <
        ((X.zip W').map
          (fun p => p.2 * gaussian_kernel bandwidth p.1 yp)).sum := by
      intro yp
      obtain ⟨w, hw, hwp⟩ := hwpos
      obtain ⟨a, ha⟩ := exists_zip_pair_of_mem_right X W' hlen w hw
      have hterm : 0 < w * gaussian_kernel bandwidth a yp :=
        mul_pos hwp (Real.exp_pos _)
      have hmem : w * gaussian_kernel bandwidth a yp ∈
          (X.zip W').map
            (fun p => p.2 * gaussian_kernel bandwidth p.1 yp) :=
        List.mem_map_of_mem _ ha
      have hle := List.single_le_sum (l := (X.zip W').map
          (fun p => p.2 * gaussian_kernel bandwidth p.1 yp)) ?_ _ hmem
      · exact lt_of_lt_of_le hterm hle
      · intro v hv
        obtain ⟨pr, hpr, hv'⟩ := List.mem_map.mp hv
        rw [← hv']
        have hw2 : pr.2 ∈ W' := (List.of_mem_zip hpr).2
        exact mul_nonneg (hwnn pr.2 hw2) (le_of_lt (Real.exp_pos _))
    have hnn : ∀ v ∈ raw, 0 ≤ v := by
      intro v hv
      obtain ⟨yp, _, hyp⟩ := List.mem_map.mp hv
      rw [← hyp]
      exact le_of_lt (hpos_all yp)
    have hpos : ∃ v ∈ raw, 0 < v := by
      obtain ⟨p, ps, hp⟩ := List.exists_cons_of_ne_nil hpts
      refine ⟨_, ?_, hpos_all p⟩
      rw [hraw, hp]
      exact List.mem_map_of_mem _ (List.mem_cons_self _ _)
    obtain ⟨hmax, hvals⟩ := normalize_surface_spec raw hnn hpos
    exact ⟨normalize_surface raw, hres, hmax, hvals⟩

/-- Witness for C6 (amended): one building centroid, one evaluation
point, unweighted: the surface exists, has maximum exactly `1`, and all
values in `[0, 1]`. -/
theorem calculate_kde_normalization_witness :
    ∃ PDF : List ℝ,
      calculate_kde [((0 : ℝ), 0)] [((3 : ℝ), 4)] [] 400 none 9 true
          = Except.ok (PDF.map some) ∧
        list_max PDF = 1 ∧ ∀ v ∈ PDF, 0 ≤ v ∧ v ≤ 1 :=
  calculate_kde_normalization.1 [((0 : ℝ), 0)] [((3 : ℝ), 4)] [] 400 9
    true (by simp) (by simp)

/-! ## §6 Conservative block aggregation (`population/utils.py` lines 165-201)

```python
indices = []
for y_diff in [-400, -200, 0, 200, 400]:
    for x_diff in [-400, -200, 0, 200, 400]:   # First iterate over Easting
        coords_match = ("N" + str(int(x.NE.y) + y_diff - 100)
                        + "E" + str(int(x.NE.x) + x_diff - 100))
        values = df_insee[df_insee.idINSPIRE.str.contains(coords_match)].index.values
        if len(values) == 0:
            indices += [None]
        else:  # Cocatenate index value
            indices += list(values)
x["indices"] = indices
```

Note `str.contains` is a substring test (the patterns contain no regex
metacharacters) and that a pattern matched by several rows appends *all*
their indices to the flat list. -/

/-- Whether the first character list is a prefix of the second. -/
def starts_with : List Char → List Char → Bool
  | [], _ => true
  | _ :: _, [] => false
  | c :: cs, d :: ds => c == d && starts_with cs ds

/-- Whether the first character list occurs contiguously inside the
second (Python's `in` / pandas `str.contains` on a literal pattern). -/
def has_substring : List Char → List Char → Bool
  | pat, [] => pat.isEmpty
  | pat, d :: rest =>
      starts_with pat (d :: rest) || has_substring pat rest

/-- Pandas `Series.str.contains` on a regex-metacharacter-free pattern:
substring containment. -/
def str_contains (s pat : String) : Bool := has_substring pat.data s.data

/-- The five relative offsets of a conservative 5×5 block, in the order
the source iterates them. -/
def slot_offsets : List ℤ := [-400, -200, 0, 200, 400]

/-- The coordinate pattern `"N…E…"` built for one slot from the block's
centroid `NE` point (`utils.py` lines 186-191); the `- 100` shifts from the
centroid back to the south-west box endpoint. -/
def coords_match (NEy NEx y_diff x_diff : ℤ) : String :=
  "N" ++ toString (NEy + y_diff - 100) ++ "E" ++
    toString (NEx + x_diff - 100)

/-- The contribution of one slot to the `indices` list (`utils.py` lines
192-198): the indices of *all* rows whose `idINSPIRE` contains the
pattern, or a single `None` when no row matches. -/
def slot_indices (df : List (ℕ × String)) (pat : String) :
    List (Option ℕ) :=
  let values := (df.filter (fun r => str_contains r.2 pat)).map
    (fun r => some r.1)
  if values.isEmpty then [none] else values

/-- The `indices` list built by `index_square_conservative` (`utils.py`
lines 176-200) for a block centred at the original northing/easting point
`(NEy, NEx)`, over a population table `df` of (row-index, `idINSPIRE`)
pairs. -/
def index_square_conservative (df : List (ℕ × String)) (NEy NEx : ℤ) :
    List (Option ℕ) :=
  slot_offsets.flatMap (fun y_diff =>
    slot_offsets.flatMap (fun x_diff =>
      slot_indices df (coords_match NEy NEx y_diff x_diff)))

/-- C3 counterexample: the slot patterns are matched by *substring*
containment, so the cell `"N0E1000"` also matches the slot pattern
`"N0E100"`; with the two cells `"N0E100"` and `"N0E1000"` both present,
the centre slot of the block centred at `(100, 200)` contributes two
indices and the list has 26 entries, not 25. -/
theorem index_square_conservative_26 :
    (index_square_conservative [(0, "N0E100"), (1, "N0E1000")]
      100 200).length = 26 := by decide

/-- A list whose every element maps to a `k`-element list flat-maps to
`k` times its length. -/
theorem flatMap_length_const {α β : Type} (l : List α) (f : α → List β)
    (k : ℕ) (h : ∀ a ∈ l, (f a).length = k) :
    (l.flatMap f).length = l.length * k := by
  induction l with
  | nil => simp
  | cons x xs ih =>
      rw [List.flatMap_cons, List.length_append,
        h x (List.mem_cons_self _ _), ih
          (fun a ha => h a (List.mem_cons_of_mem _ ha)),
        List.length_cons]
      ring

/-- A slot whose pattern matches at most one row contributes exactly one
entry (its index, or `none` when there is no match). -/
theorem slot_indices_length_one (df : List (ℕ × String)) (pat : String)
    (h : (df.filter (fun r => str_contains r.2 pat)).length ≤ 1) :
    (slot_indices df pat).length = 1 := by
  rw [slot_indices]
  cases hf : df.filter (fun r => str_contains r.2 pat) with
  | nil => rfl
  | cons r rs =>
      rw [hf] at h
      cases rs with
      | nil => rfl
      | cons r' rs' => simp at h

/-- C3 (amended): the conservative `indices` list is built from exactly 25
slots — one per relative offset in `{-400,-200,0,200,400}²`, easting
varying inside northing, both ascending; a slot whose pattern matches no
cell contributes a single `null`, but a slot whose pattern is contained in
the identifiers of `k ≥ 1` cells contributes all `k` indices, so the list
length is exactly 25 precisely when every slot pattern matches at most one
cell (substring matching), and exceeds 25 otherwise. -/
theorem index_square_conservative_length (df : List (ℕ × String))
    (NEy NEx : ℤ)
    (h : ∀ y_diff ∈ slot_offsets, ∀ x_diff ∈ slot_offsets,
      (df.filter (fun r =>
        str_contains r.2 (coords_match NEy NEx y_diff x_diff))).length
        ≤ 1) :
    (index_square_conservative df NEy NEx).length = 25 := by
  rw [index_square_conservative,
    flatMap_length_const slot_offsets _ 5 (fun yd hyd => ?_)]
  · rfl
  · rw [flatMap_length_const slot_offsets _ 1 (fun xd hxd =>
      slot_indices_length_one df _ (h yd hyd xd hxd))]
    rfl

/-- Witness for C3 (amended): a one-cell table; every slot pattern matches
at most one row, so the indices list has exactly 25 slots. -/
theorem index_square_conservative_length_witness :
    (index_square_conservative [(0, "N0E100")] 100 200).length = 25 :=
  index_square_conservative_length [(0, "N0E100")] 100 200 (by decide)

/-! ## §7 Empty-cell backfill (`population/utils.py` lines 324-423)

`get_population_df_filled_empty_squares` parses each cell's south-west
northing/easting from `idINSPIRE`, builds the mesh

```python
north_min, north_max = coordinates.north.min() + 100, coordinates.north.max() + 100
east_min,  east_max  = coordinates.east.min() + 100,  coordinates.east.max() + 100
xv, yv = np.meshgrid(np.arange(east_min, east_max, step),
                     np.arange(north_min, north_max, step))   # step = 200.0
```

and, for every mesh centroid `(E, N)` (northing outer, easting inner) whose
point intersects no existing 200 m box, appends a zero-population
200 m × 200 m box centred there.  INSEE cells are 200 m axis-aligned boxes
whose south-west endpoint is the parsed coordinate pair (docstring of
`get_aggregated_squares`), so "the point `(E, N)` intersects the cell" is a
closed-box membership test. -/

/-- One INSEE population cell: parsed south-west northing/easting of its
200 m box, and its population count. -/
structure InseeSquare where
  north : ℤ
  east : ℤ
  pop_count : ℚ

/-- Shapely `intersects` between the point `(E, N)` and the closed 200 m
box of an INSEE cell (the `gpd.sjoin(point_df, df_insee_3035)` test of
`utils.py` lines 381-383). -/
def covers (s : InseeSquare) (E N : ℤ) : Bool :=
  decide (s.east ≤ E) && decide (E ≤ s.east + 200) &&
    decide (s.north ≤ N) && decide (N ≤ s.north + 200)

/-- Minimum of a list of integers (pandas `.min()`; `[]` is junk). -/
def listMinZ : List ℤ → ℤ
  | [] => 0
  | x :: xs => xs.foldl min x

/-- Maximum of a list of integers (pandas `.max()`; `[]` is junk). -/
def listMaxZ : List ℤ → ℤ
  | [] => 0
  | x :: xs => xs.foldl max x

/-- Number of elements of `np.arange(start, stop, step)` for a positive
integer step: `⌈(stop - start) / step⌉`, and `0` when `stop ≤ start`. -/
def arange_len (start stop step : ℤ) : ℕ :=
  if stop ≤ start then 0
  else ((stop - start).toNat + step.toNat - 1) / step.toNat

/-- `np.arange(start, stop, step)` over integers. -/
def np_arange (start stop step : ℤ) : List ℤ :=
  (List.range (arange_len start stop step)).map
    (fun k => start + step * (k : ℤ))

/-- The northing mesh coordinates: `np.arange(north_min, north_max, 200)`
with the `+ 100` centroid offset (`utils.py` lines 353-372). -/
def mesh_norths (df : List InseeSquare) : List ℤ :=
  np_arange (listMinZ (df.map (fun s => s.north)) + 100)
    (listMaxZ (df.map (fun s => s.north)) + 100) 200

/-- The easting mesh coordinates, analogously. -/
def mesh_easts (df : List InseeSquare) : List ℤ :=
  np_arange (listMinZ (df.map (fun s => s.east)) + 100)
    (listMaxZ (df.map (fun s => s.east)) + 100) 200

/-- The list of synthesized zero-population box centres
(`empty_population_box` of `utils.py` lines 374-395): every mesh centroid,
northing outer and easting inner (the ravel order of `np.meshgrid`),
that intersects no existing cell. -/
def empty_population_box (df : List InseeSquare) : List (ℤ × ℤ) :=
  (mesh_norths df).flatMap (fun N =>
    (mesh_easts df).filterMap (fun E =>
      if df.any (fun s => covers s E N) then none else some (E, N)))

/-- C7 counterexample: with only the centre cell of a 3×3 region observed
(south-west corner `(200, 200)`), the mesh ranges over
`np.arange(300, 300, 200) = []`, so the backfill synthesizes *zero*
cells — not 8 cells that the convex-hull check then excludes. -/
theorem empty_population_box_center_only :
    empty_population_box [⟨200, 200, 1⟩] = [] ∧
      (empty_population_box [⟨200, 200, 1⟩]).length ≠ 8 := by decide

/-- C7 (amended): the backfill synthesizes a zero-population square
exactly at those mesh centroids — the mesh spanning only the bounding
range of the observed south-west coordinates, offset `+100`, step `200` —
that intersect no observed cell; in particular, with a single observed
cell the mesh is empty and nothing is synthesized (so nothing ever
reaches the convex-hull filter in the single-cell scenario). -/
theorem empty_population_box_spec (df : List InseeSquare) (E N : ℤ) :
    (E, N) ∈ empty_population_box df ↔
      (N ∈ mesh_norths df ∧ E ∈ mesh_easts df ∧
        ∀ s ∈ df, covers s E N = false) := by
  simp only [empty_population_box, List.mem_flatMap, List.mem_filterMap]
  constructor
  · rintro ⟨N', hN', E', hE', hf⟩
    by_cases hc : (df.any fun s => covers s E' N') = true
    · rw [if_pos hc] at hf
      cases hf
    · rw [if_neg hc] at hf
      have hp := Option.some.inj hf
      have hE'' : E' = E := congrArg Prod.fst hp
      have hN'' : N' = N := congrArg Prod.snd hp
      subst hE''
      subst hN''
      refine ⟨hN', hE', fun s hs => ?_⟩
      by_contra hcv
      exact hc (List.any_eq_true.mpr ⟨s, hs,
        Bool.of_not_eq_false hcv⟩)
  · rintro ⟨hN, hE, hcov⟩
    refine ⟨N, hN, E, hE, ?_⟩
    rw [if_neg]
    intro hc
    obtain ⟨s, hs, hcv⟩ := List.any_eq_true.mp hc
    rw [hcov s hs] at hcv
    cases hcv

/-- Witness for C7 (amended): two observed cells at `(0,0)` and
`(400,400)`; the mesh centroid `(E, N) = (300, 100)` is covered by
neither cell, so a zero-population square is synthesized there. -/
theorem empty_population_box_spec_witness :
    ((300 : ℤ), (100 : ℤ)) ∈
      empty_population_box [⟨0, 0, 1⟩, ⟨400, 400, 1⟩] :=
  (empty_population_box_spec [⟨0, 0, 1⟩, ⟨400, 400, 1⟩] 300 100).mpr
    (by decide)

/-! ## §8 Identifier parsing (`population/utils.py` lines 144-151, 338-342)

Both aggregation entry points extract northing/easting from `idINSPIRE`:

```python
def get_northing_easting(x):
    north, east = x.idINSPIRE.split("N")[1].split("E")
    x["north"] = int(north)
    x["east"] = int(east)
    return x
```

`get_aggregated_squares` (lines 144-151) wraps the body in
`try: ... except (IndexError, ValueError): x["north"], x["east"] = np.nan, np.nan`,
so an unparsable identifier yields null coordinates and the row survives.
`get_population_df_filled_empty_squares` (lines 338-342) has **no**
handler: the exception propagates and aborts the whole computation. -/

/-- Python `str.split(sep)` for a one-character separator, over character
lists. -/
def split_on_char (c : Char) : List Char → List (List Char)
  | [] => [[]]
  | d :: ds =>
      let rest := split_on_char c ds
      if d == c then [] :: rest
      else
        match rest with
        | [] => [[d]]
        | g :: gs => (d :: g) :: gs

/-- Decimal digit accumulation for `int(...)`. -/
def digits_to_nat : List Char → ℕ → Option ℕ
  | [], acc => some acc
  | c :: cs, acc =>
      if c.isDigit then digits_to_nat cs (acc * 10 + (c.toNat - 48))
      else none

/-- Python `int(str)` on a trimmed literal: an optional minus sign
followed by at least one decimal digit, else `ValueError` (`none`). -/
def python_int_of_chars : List Char → Option ℤ
  | [] => none
  | '-' :: rest =>
      match rest with
      | [] => none
      | _ => (digits_to_nat rest 0).map (fun n => -(n : ℤ))
  | l => (digits_to_nat l 0).map (fun n => (n : ℤ))

/-- The shared parsing logic
`north, east = idINSPIRE.split("N")[1].split("E"); int(north); int(east)`:
`none` models the `IndexError` (no second `"N"`-chunk) or `ValueError`
(unpack of ≠ 2 parts, or non-integer literal) that the body can raise. -/
def parse_idINSPIRE (s : String) : Option (ℤ × ℤ) :=
  match (split_on_char 'N' s.data).get? 1 with
  | none => none
  | some t =>
      match split_on_char 'E' t with
      | [n, e] =>
          match python_int_of_chars n, python_int_of_chars e with
          | some ni, some ei => some (ni, ei)
          | _, _ => none
      | _ => none

/-- `get_northing_easting` of `get_aggregated_squares` (lines 144-151):
the `try/except` turns any parse failure into null (`NaN`) coordinates. -/
def get_northing_easting_agg (s : String) : Option (ℤ × ℤ) :=
  parse_idINSPIRE s

/-- The coordinate pass of `get_aggregated_squares` (line 205): one
(possibly null) coordinate pair per record, never an exception. -/
def agg_coordinates (ids : List String) : List (Option (ℤ × ℤ)) :=
  ids.map get_northing_easting_agg

/-- The coordinate pairs that enter the mesh bounds of
`get_aggregated_squares` (pandas `.min()`/`.max()` skip `NaN`): only the
successfully parsed ones. -/
def agg_parsed_coords (ids : List String) : List (ℤ × ℤ) :=
  ids.filterMap parse_idINSPIRE

/-- `get_northing_easting` of `get_population_df_filled_empty_squares`
(lines 338-342): no exception handler, so a parse failure propagates
(`Except.error` carries the offending identifier). -/
def get_northing_easting_fill (s : String) : Except String (ℤ × ℤ) :=
  match parse_idINSPIRE s with
  | some ne => Except.ok ne
  | none => Except.error s

/-- The coordinate pass of `get_population_df_filled_empty_squares`
(line 349): `df.apply` evaluates rows in order and the first uncaught
exception aborts the whole computation. -/
def fill_coordinates (ids : List String) :
    Except String (List (ℤ × ℤ)) :=
  ids.foldr
    (fun s acc =>
      match get_northing_easting_fill s, acc with
      | Except.error e, _ => Except.error e
      | _, Except.error e => Except.error e
      | Except.ok v, Except.ok l => Except.ok (v :: l))
    (Except.ok [])

/-- C8 counterexample: in `get_population_df_filled_empty_squares`, one
record with the unparsable identifier `"CRS"` aborts the whole coordinate
computation (the parsable first record notwithstanding) instead of
receiving null coordinates. -/
theorem fill_coordinates_aborts :
    fill_coordinates ["CRS3035RES200mN2029800E4254200", "CRS"]
      = Except.error "CRS" := rfl

/-- C8 (amended): in `get_aggregated_squares` coordinate parsing is
non-fatal — every record receives a (possibly null) coordinate pair, an
unparsable identifier yields null coordinates, and such a record is
excluded from the mesh-bound coordinates while remaining in the table;
but in `get_population_df_filled_empty_squares` the same parse has no
exception handler, and any unparsable identifier aborts the whole
computation. -/
theorem coordinate_parsing_spec :
    (∀ ids : List String, (agg_coordinates ids).length = ids.length) ∧
    (∀ s, parse_idINSPIRE s = none → get_northing_easting_agg s = none) ∧
    (∀ (ids : List String) (s : String), parse_idINSPIRE s = none →
      agg_parsed_coords (ids ++ [s]) = agg_parsed_coords ids) ∧
    (∀ (ids : List String) (s : String), s ∈ ids →
      parse_idINSPIRE s = none →
      ∃ e, fill_coordinates ids = Except.error e) := by
  refine ⟨?_, ?_, ?_, ?_⟩
  · intro ids
    exact List.length_map ids _
  · intro s h
    exact h
  · intro ids s h
    rw [agg_parsed_coords, agg_parsed_coords, List.filterMap_append]
    simp [h]
  · intro ids s hmem hbad
    induction ids with
    | nil => exact absurd hmem (List.not_mem_nil s)
    | cons a as ih =>
        have hstep : fill_coordinates (a :: as)
            = match get_northing_easting_fill a, fill_coordinates as with
              | Except.error e, _ => Except.error e
              | _, Except.error e => Except.error e
              | Except.ok v, Except.ok l => Except.ok (v :: l) := rfl
        rcases List.mem_cons.mp hmem with h | h
        · subst h
          have ha : get_northing_easting_fill s = Except.error s := by
            rw [get_northing_easting_fill, hbad]
          rw [hstep, ha]
          cases fill_coordinates as with
          | error e2 => exact ⟨s, rfl⟩
          | ok l => exact ⟨s, rfl⟩
        · obtain ⟨e, he⟩ := ih h
          rw [hstep, he]
          cases get_northing_easting_fill a with
          | error e' => exact ⟨e', rfl⟩
          | ok v => exact ⟨e, rfl⟩

/-- Witness for C8 (amended): the synthetic identifier `"CRS"` (used by
`get_training_testing_data` for created squares) parses to null
coordinates without aborting in `get_aggregated_squares`, is dropped from
the mesh-bound coordinates, and aborts
`get_population_df_filled_empty_squares`. -/
theorem coordinate_parsing_spec_witness :
    get_northing_easting_agg "CRS" = none ∧
      agg_parsed_coords ["N100E200", "CRS"]
        = agg_parsed_coords ["N100E200"] ∧
      ∃ e, fill_coordinates ["CRS"] = Except.error e := by
  obtain ⟨h1, h2, h3, h4⟩ := coordinate_parsing_spec
  exact ⟨h2 "CRS" (by decide), h3 ["N100E200"] "CRS" (by decide),
    h4 ["CRS"] "CRS" (by decide) (by decide)⟩

end Urbansprawl
